import Mathlib

/-!
# esp32-webserver: path resolution, content types, routing and the API handler

A shallow embedding of `src/webserver.c` and `src/include/webserver.h`.

* C strings passed in by the caller are lists of characters (the bytes before
  the terminator); `NulFree` states that such a list holds no terminator.
* Writable arrays (`dest`, `filepath`, `content`) are functions from a byte
  offset to a character, so that a write outside the intended range would be
  visible, and the strings the code reads back from them are found by scanning
  for the terminator.
* `size_t` is 32 bits wide on the ESP32; sums of lengths are reduced modulo
  `SIZE_MOD`. Statements about the resolver assume that base path and URI fit
  the address space together, `base.length + uri.length + 1 < SIZE_MOD`.
* What a handler does to the HTTP server, the filesystem and the display is
  recorded as a list of `Event`s in the order of the calls.
* The collaborators are parameters: the filesystem, the outcome of each chunk
  transmission, the behaviour of `httpd_req_recv`, the number conversion of the
  C library and the embedded binaries.
-/

namespace Webserver

/-! ## C strings and buffers -/

/-- Terminator of a C string. -/
def NUL : Char := Char.ofNat 0

/-- A C string holds no terminator among its characters. -/
def NulFree (s : List Char) : Prop := ∀ c ∈ s, c ≠ NUL

instance (s : List Char) : Decidable (NulFree s) := by
  unfold NulFree; infer_instance

/-- Range of `size_t` on the target (32-bit). -/
def SIZE_MOD : Nat := 2 ^ 32

/-- A writable character array, addressed by offset from its first byte. -/
abbrev Mem := Nat → Char

/-- Store the bytes `bs` at offsets `off, off+1, ...`; every other offset keeps its value. -/
def writeBytes (m : Mem) (off : Nat) (bs : List Char) : Mem :=
  fun i => if i < off then m i else (bs[i - off]?).getD (m i)

/-- The C string stored at offset `off`, reading at most `n` bytes: `none` when no
terminator is found among them (the read would leave the array). -/
def cstr (m : Mem) (off : Nat) : Nat → Option (List Char)
  | 0 => none
  | n + 1 => if m off = NUL then some [] else (cstr m (off + 1) n).map (fun t => m off :: t)

/-- Length of a C string: `strlen`. -/
def strlen (s : List Char) : Nat := s.length

/-- Offset of the first occurrence of `c` in the string (the terminator counts as part
of the string), or `none` for a null result: `strchr`. -/
def strchr : List Char → Char → Option Nat
  | [], c => if c = NUL then some 0 else none
  | x :: xs, c => if x = c then some 0 else (strchr xs c).map (fun k => k + 1)

/-- The `MIN` of `sys/param.h`: `((a) < (b)) ? (a) : (b)`. -/
def MIN (a b : Nat) : Nat := if a < b then a else b

/-- Copy `src` and its terminator to offset `off`: `strcpy`. -/
def strcpy (m : Mem) (off : Nat) (src : List Char) : Mem :=
  writeBytes m off (src ++ [NUL])

/-- Copy at most `size - 1` characters of `src` to offset `off` and terminate them;
nothing is written when `size` is zero: `strlcpy`. -/
def strlcpy (m : Mem) (off : Nat) (src : List Char) (size : Nat) : Mem :=
  if size = 0 then m else writeBytes m off (src.take (size - 1) ++ [NUL])

/-! ## Path resolver -/

/-- Resolver `get_path_from_uri(dest, base_path, uri, destsize)`.
Returns the destination buffer afterwards and the returned pointer as an offset into
`dest` (`none` for `NULL`). -/
def get_path_from_uri (dest : Mem) (base_path uri : List Char) (destsize : Nat) :
    Mem × Option Nat :=
  let base_pathlen := strlen base_path
  let pathlen := strlen uri
  let pathlen := match strchr uri '?' with
    | some quest => MIN pathlen quest
    | none => pathlen
  let pathlen := match strchr uri '#' with
    | some hash => MIN pathlen hash
    | none => pathlen
  if (base_pathlen + pathlen + 1) % SIZE_MOD > destsize then
    (dest, none)
  else
    let dest := strcpy dest 0 base_path
    let dest := strlcpy dest base_pathlen uri ((pathlen + 1) % SIZE_MOD)
    (dest, some base_pathlen)

/-- The URI cut at the first `?` or `#`, whichever occurs first (the whole URI when
neither occurs): the wording of the specification. -/
def stripped_uri (uri : List Char) : List Char :=
  uri.takeWhile (fun c => c != '?' && c != '#')

/-! ## String comparison -/

/-- Comparison `strcmp`: zero for equal strings, otherwise the difference of the first
pair of characters that differ (the terminator counts as character zero). -/
def strcmp : List Char → List Char → Int
  | [], [] => 0
  | [], b :: _ => 0 - (b.toNat : Int)
  | a :: _, [] => (a.toNat : Int)
  | a :: as, b :: bs => if a = b then strcmp as bs else (a.toNat : Int) - (b.toNat : Int)

/-- Case folding `tolower` of the C locale: only `A`..`Z` change. -/
def tolower (c : Char) : Char := c.toLower

/-- Comparison `strcasecmp`: as `strcmp`, on the lower-cased characters. -/
def strcasecmp : List Char → List Char → Int
  | [], [] => 0
  | [], b :: _ => 0 - ((tolower b).toNat : Int)
  | a :: _, [] => ((tolower a).toNat : Int)
  | a :: as, b :: bs =>
    if tolower a = tolower b then strcasecmp as bs
    else ((tolower a).toNat : Int) - ((tolower b).toNat : Int)

/-! ## Content type -/

/-- The offset, relative to `filename`, at which `IS_FILE_EXT(filename, ext)` starts its
comparison: `strlen(filename) - sizeof(ext) + 1`, where `sizeof(ext)` counts the
terminator. The macro computes it in `size_t`; for a filename shorter than the extension
the subtraction wraps, and added to the pointer the wrapped value acts as this negative
offset. -/
def IS_FILE_EXT_index (len : Nat) (ext : List Char) : Int :=
  (len : Int) - ((ext.length : Int) + 1) + 1

/-- The macro `IS_FILE_EXT(filename, ext)`, for a `filename` that points at offset
`filename` into the array `m` of `size` bytes. The result is `none` when a read leaves
the array. -/
def IS_FILE_EXT (m : Mem) (size filename : Nat) (ext : List Char) : Option Bool :=
  match cstr m filename (size - filename) with
  | none => none
  | some s =>
    let start : Int := (filename : Int) + IS_FILE_EXT_index (strlen s) ext
    if start < 0 then none
    else
      match cstr m start.toNat (size - start.toNat) with
      | none => none
      | some t => some (strcasecmp t ext == 0)

/-- The function `set_content_type_from_file(req, filename)`: the content type handed to
`httpd_resp_set_type`, for a `filename` pointing at offset `filename` into `m`. -/
def set_content_type_from_file (m : Mem) (size filename : Nat) : Option String :=
  match IS_FILE_EXT m size filename ".pdf".toList with
  | none => none
  | some true => some "application/pdf"
  | some false =>
    match IS_FILE_EXT m size filename ".html".toList with
    | none => none
    | some true => some "text/html"
    | some false =>
      match IS_FILE_EXT m size filename ".jpeg".toList with
      | none => none
      | some true => some "image/jpeg"
      | some false =>
        match IS_FILE_EXT m size filename ".ico".toList with
        | none => none
        | some true => some "image/x-icon"
        | some false => some "text/plain"

/-! ## Requests, responses and collaborators -/

/-- Result codes of the handlers. -/
inductive esp_err_t
  | ESP_OK
  | ESP_FAIL
  deriving DecidableEq, Repr

/-- Calls a handler makes on the HTTP server, the filesystem and the display, in order. -/
inductive Event
  | httpd_resp_set_status (status : String)
  | httpd_resp_set_hdr (field value : String)
  | httpd_resp_set_type (ctype : String)
  | httpd_resp_send (body : List Char)
  | httpd_resp_sendstr (body : String)
  | httpd_resp_send_chunk (chunk : List Char)
  | httpd_resp_send_err (code : Nat) (msg : String)
  | httpd_resp_send_408
  | stat (path : List Char)
  | fopen (path : List Char)
  | fclose
  | update_display
  deriving DecidableEq, Repr

/-- What a handler did and what it returned. -/
structure Outcome where
  ret : esp_err_t
  trace : List Event
  deriving DecidableEq, Repr

/-- The binary blobs linked into the firmware (`_binary_*_start` .. `_binary_*_end`). -/
structure Embedded where
  index_html : List Char
  robots_txt : List Char
  style_css : List Char
  favicon_ico : List Char
  Ubuntu_woff2 : List Char

/-- A file on the flash filesystem: whether `fopen` succeeds on it, and its bytes. -/
structure FileEntry where
  readable : Bool
  content : List Char

/-- The filesystem: `stat` fails exactly on the paths mapped to `none`. -/
abbrev FileSystem := List Char → Option FileEntry

/-- The context `struct file_server_data` (the scratch buffer carries no state between
requests). -/
structure file_server_data where
  base_path : List Char

/-- Chunk size `SCRATCH_BUFSIZE`. -/
def SCRATCH_BUFSIZE : Nat := 8192

/-- Handler `index_html_get_handler`. -/
def index_html_get_handler : Outcome :=
  ⟨.ESP_OK, [.httpd_resp_set_status "307 Temporary Redirect",
    .httpd_resp_set_hdr "Location" "/", .httpd_resp_send []]⟩

/-- Handler `favicon_get_handler`. -/
def favicon_get_handler (emb : Embedded) : Outcome :=
  ⟨.ESP_OK, [.httpd_resp_set_type "image/x-icon", .httpd_resp_send emb.favicon_ico]⟩

/-- Handler `font_get_handler`. -/
def font_get_handler (emb : Embedded) : Outcome :=
  ⟨.ESP_OK, [.httpd_resp_set_type "font/woff2", .httpd_resp_send emb.Ubuntu_woff2]⟩

/-- Responder `http_resp_index_html`; `httpd_resp_sendstr_chunk(req, NULL)` is the empty
chunk. -/
def http_resp_index_html (emb : Embedded) : Outcome :=
  ⟨.ESP_OK, [.httpd_resp_send_chunk emb.index_html, .httpd_resp_send_chunk []]⟩

/-- Responder `http_resp_robots_txt`. -/
def http_resp_robots_txt (emb : Embedded) : Outcome :=
  ⟨.ESP_OK, [.httpd_resp_send_chunk emb.robots_txt, .httpd_resp_send_chunk []]⟩

/-- Responder `http_resp_style_css`. -/
def http_resp_style_css (emb : Embedded) : Outcome :=
  ⟨.ESP_OK, [.httpd_resp_set_type "text/css", .httpd_resp_send_chunk emb.style_css,
    .httpd_resp_send_chunk []]⟩

/-- The `do .. while (chunksize != 0)` loop of `download_get_handler` with what follows
it. `rest` is the unread part of the open file, `fread` delivers its next
`SCRATCH_BUFSIZE` bytes (fewer at the end of the file), and `send_ok k` tells whether the
transmission of chunk number `k` returns `ESP_OK`. -/
def stream_file (send_ok : Nat → Bool) (k : Nat) (rest : List Char) : Outcome :=
  if hpos : 0 < (rest.take SCRATCH_BUFSIZE).length then
    let chunk := rest.take SCRATCH_BUFSIZE
    if send_ok k then
      let o := stream_file send_ok (k + 1) (rest.drop SCRATCH_BUFSIZE)
      ⟨o.ret, .httpd_resp_send_chunk chunk :: o.trace⟩
    else
      ⟨.ESP_FAIL, [.httpd_resp_send_chunk chunk, .fclose, .httpd_resp_send_chunk [],
        .httpd_resp_send_err 500 "Failed to send file"]⟩
  else
    ⟨.ESP_OK, [.fclose, .httpd_resp_send_chunk []]⟩
termination_by rest.length
decreasing_by
  simp only [List.length_take, List.length_drop, SCRATCH_BUFSIZE] at *
  omega

/-- Handler `download_get_handler`. `FILE_PATH_MAX` is the size of the local array
`filepath` (`ESP_VFS_PATH_MAX + CONFIG_SPIFFS_OBJ_NAME_LEN`, both set by the build),
`filepath0` its contents on entry, `uri` the request URI. The result is `none` when the
handler reads outside `filepath`. -/
def download_get_handler (FILE_PATH_MAX : Nat) (ctx : file_server_data) (emb : Embedded)
    (fs : FileSystem) (send_ok : Nat → Bool) (filepath0 : Mem) (uri : List Char) :
    Option Outcome :=
  match get_path_from_uri filepath0 ctx.base_path uri FILE_PATH_MAX with
  | (_, none) =>
    some ⟨.ESP_FAIL, [.httpd_resp_send_err 500 "Filename too long"]⟩
  | (filepath, some filename) =>
    match cstr filepath filename (FILE_PATH_MAX - filename) with
    | none => none
    | some name =>
      -- filename[strlen(filename) - 1]; the index wraps to -1 for an empty name
      let last : Int := (filename : Int) + ((strlen name : Int) - 1)
      if last < 0 then none
      else if filepath last.toNat = '/' then some (http_resp_index_html emb)
      else if strcmp name "/style.css".toList = 0 then some (http_resp_style_css emb)
      else if strcmp name "/robots.txt".toList = 0 then some (http_resp_robots_txt emb)
      else
        match cstr filepath 0 FILE_PATH_MAX with
        | none => none
        | some path =>
          match fs path with
          | none =>
            if strcmp name "/index.html".toList = 0 then
              some ⟨index_html_get_handler.ret, .stat path :: index_html_get_handler.trace⟩
            else if strcmp name "/favicon.ico".toList = 0 then
              some ⟨(favicon_get_handler emb).ret, .stat path :: (favicon_get_handler emb).trace⟩
            else if strcmp name "/Ubuntu.woff2".toList = 0 then
              some ⟨(font_get_handler emb).ret, .stat path :: (font_get_handler emb).trace⟩
            else
              some ⟨.ESP_FAIL, [.stat path, .httpd_resp_send_err 404 "File does not exist"]⟩
          | some file =>
            if file.readable then
              match set_content_type_from_file filepath FILE_PATH_MAX filename with
              | none => none
              | some ctype =>
                let o := stream_file send_ok 0 file.content
                some ⟨o.ret, .stat path :: .fopen path :: .httpd_resp_set_type ctype :: o.trace⟩
            else
              some ⟨.ESP_FAIL, [.stat path, .fopen path,
                .httpd_resp_send_err 500 "Failed to read existing file"]⟩

/-! ## API handler -/

/-- The shared variables `temp`, `goal`, `under`, `over` of `webserver.h`; `F` stands for
`float`. -/
structure Setpoints (F : Type) where
  temp : F
  goal : F
  under : F
  over : F

/-- What one call `httpd_req_recv(req, buf, n)` does: its return value and the bytes it
stores at the start of `buf`. -/
structure RecvResult where
  ret : Int
  data : List Char

/-- The constant `HTTPD_SOCK_ERR_TIMEOUT` of `esp_http_server.h`. -/
def HTTPD_SOCK_ERR_TIMEOUT : Int := -3

/-- Conversion `atof(content)` assigned to a `float`. The number conversion of the C
library is the parameter `strtod`, `none` when no conversion can be performed; the
library then returns zero. -/
def atof {F : Type} (strtod : Mem → Option F) (zero : F) (content : Mem) : F :=
  (strtod content).getD zero

/-- What `api_post_handler` did, what it returned, and the shared variables afterwards. -/
structure ApiOutcome (F : Type) where
  ret : esp_err_t
  trace : List Event
  vars : Setpoints F

/-- Handler `api_post_handler`. `recv n` is the behaviour of `httpd_req_recv` when asked
for `n` bytes, `content0` the contents of the local array `content` on entry. -/
def api_post_handler {F : Type} (strtod : Mem → Option F) (zero : F)
    (recv : Nat → RecvResult) (uri : List Char) (content_len : Nat) (content0 : Mem)
    (vars : Setpoints F) : ApiOutcome F :=
  let recv_size := MIN content_len 100
  let r := recv recv_size
  let content := writeBytes content0 0 r.data
  if r.ret ≤ 0 then
    if r.ret = HTTPD_SOCK_ERR_TIMEOUT then
      ⟨.ESP_FAIL, [.httpd_resp_send_408], vars⟩
    else
      ⟨.ESP_FAIL, [], vars⟩
  else
    let finish : List Event :=
      [.httpd_resp_set_status "303 See Other", .httpd_resp_set_hdr "Location" "/",
        .httpd_resp_sendstr "post processed successfully"]
    if strcmp uri "/api/set_temp".toList = 0 then
      ⟨.ESP_OK, .update_display :: finish, { vars with goal := atof strtod zero content }⟩
    else if strcmp uri "/api/set_upper_margin".toList = 0 then
      ⟨.ESP_OK, .update_display :: finish, { vars with over := atof strtod zero content }⟩
    else if strcmp uri "/api/set_lower_margin".toList = 0 then
      ⟨.ESP_OK, .update_display :: finish, { vars with under := atof strtod zero content }⟩
    else
      ⟨.ESP_OK, .httpd_resp_set_status "501 Not Implemented" ::
        .httpd_resp_sendstr "couldn't match that req to a server function" :: finish, vars⟩

/-! ## A decimal number conversion, to run the API handler on concrete bodies -/

/-- A decimal value `digits / 10 ^ scale`, as a conversion reads it before any rounding
to `float`. -/
structure Decimal where
  digits : Nat
  scale : Nat
  deriving DecidableEq, Repr

/-- Test `isdigit` of the C locale. -/
def isdigit (c : Char) : Bool := 48 ≤ c.toNat && c.toNat ≤ 57

/-- Read decimal digits from offset `off` on, at most `n` of them, continuing the number
`acc`: the number read and how many digits it took. -/
def scan_digits (m : Mem) (off acc : Nat) : Nat → Nat × Nat
  | 0 => (acc, 0)
  | n + 1 =>
    if isdigit (m off) then
      let r := scan_digits m (off + 1) (acc * 10 + (m off).toNat - 48) n
      (r.1, r.2 + 1)
    else (acc, 0)

/-- The conversion of the C library on unsigned decimal tokens, reading at most `limit`
bytes: digits, then optionally a point and more digits, ended by the first byte that
continues neither. It is `none` when no digit is found, the case in which no conversion
is performed. Signs, white space and exponents are left out. -/
def strtod_decimal (limit : Nat) (m : Mem) : Option Decimal :=
  let ip := scan_digits m 0 0 limit
  if m ip.2 = '.' then
    let fp := scan_digits m (ip.2 + 1) ip.1 (limit - ip.2 - 1)
    if ip.2 + fp.2 = 0 then none else some ⟨fp.1, fp.2⟩
  else if ip.2 = 0 then none
  else some ⟨ip.1, 0⟩

/-- A state of the uninitialised array `content` on entry to `api_post_handler`: the
bytes at offsets 0 to 7 hold the character `7`, every later byte is zero. -/
def stale_content : Mem := fun i => if i < 8 then '7' else NUL

/-! ## Auxiliary definitions for the proofs -/

/-- The contents of `filepath` after a successful resolution. -/
def resolved (filepath0 : Mem) (base uri : List Char) : Mem :=
  writeBytes filepath0 0 (base ++ stripped_uri uri ++ [NUL])

/-! ## Buffers and C strings: basic facts -/

theorem writeBytes_ge (m : Mem) (off : Nat) (bs : List Char) (i : Nat)
    (h : off + bs.length ≤ i) : writeBytes m off bs i = m i := by
  have h1 : ¬ i < off := by omega
  have h2 : bs.length ≤ i - off := by omega
  simp [writeBytes, h1, List.getElem?_eq_none h2]

theorem writeBytes_in (m : Mem) (off : Nat) (bs : List Char) (j : Nat) (h : j < bs.length) :
    writeBytes m off bs (off + j) = bs[j] := by
  simp [writeBytes, List.getElem?_eq_getElem h]

theorem writeBytes_overlap (m : Mem) (a b : List Char) (x : Char) (hb : b ≠ []) :
    writeBytes (writeBytes m 0 (a ++ [x])) a.length b = writeBytes m 0 (a ++ b) := by
  funext i
  unfold writeBytes
  by_cases h : i < a.length
  · simp [h, List.getElem?_append_left h]
  · have hle : a.length ≤ i := by omega
    simp only [h, if_false, Nat.not_lt_zero, Nat.sub_zero]
    rw [List.getElem?_append_right hle, List.getElem?_append_right hle]
    cases hb' : b with
    | nil => exact absurd hb' hb
    | cons y ys =>
      by_cases h0 : i - a.length = 0
      · simp [h0]
      · obtain ⟨k, hk⟩ := Nat.exists_eq_succ_of_ne_zero h0
        simp [hk]

theorem cstr_of_agree (m : Mem) : ∀ (s : List Char) (off n : Nat),
    (∀ j (hj : j < s.length), m (off + j) = s[j]) → m (off + s.length) = NUL →
    NulFree s → s.length < n → cstr m off n = some s := by
  intro s
  induction s with
  | nil =>
    intro off n _ h0 _ hn
    obtain ⟨k, rfl⟩ := Nat.exists_eq_succ_of_ne_zero (Nat.ne_of_gt hn)
    simpa [cstr] using h0
  | cons c cs ih =>
    intro off n hag h0 hnf hn
    obtain ⟨k, rfl⟩ := Nat.exists_eq_succ_of_ne_zero (Nat.ne_of_gt (Nat.lt_of_le_of_lt (Nat.zero_le _) hn))
    have hc : m off = c := by simpa using hag 0 (by simp)
    have hne : c ≠ NUL := hnf c (by simp)
    have := ih (off + 1) k
      (fun j hj => by
        have := hag (j + 1) (by simpa using hj)
        simpa [Nat.add_assoc, Nat.add_comm 1 j] using this)
      (by simpa [Nat.add_assoc, Nat.add_comm 1] using h0)
      (fun d hd => hnf d (by simp [hd]))
      (by simpa using hn)
    simp [cstr, hc, hne, this]


theorem strchr_eq (c : Char) (hc : c ≠ NUL) : ∀ uri : List Char,
    strchr uri c =
      if c ∈ uri then some (uri.takeWhile (fun d => d != c)).length else none := by
  intro uri
  induction uri with
  | nil => simp [strchr, hc]
  | cons x xs ih =>
    by_cases hx : x = c
    · subst hx; simp [strchr]
    · have hx' : ¬ c = x := fun h => hx h.symm
      by_cases hm : c ∈ xs
      · simp [strchr, hx, hx', ih, hm, List.takeWhile_cons]
      · simp [strchr, hx, hx', ih, hm]

theorem takeWhile_length_le {α : Type} (p : α → Bool) (l : List α) :
    (l.takeWhile p).length ≤ l.length := by
  induction l with
  | nil => simp
  | cons x xs ih =>
    rw [List.takeWhile_cons]
    split <;> simp; omega

theorem takeWhile_not_mem (c : Char) : ∀ uri : List Char, c ∉ uri →
    uri.takeWhile (fun d => d != c) = uri := by
  intro uri
  induction uri with
  | nil => simp
  | cons x xs ih =>
    intro h
    have h1 : ¬ x = c := fun e => h (by simp [e])
    have h2 : c ∉ xs := fun e => h (by simp [e])
    simp [List.takeWhile_cons, h1, ih h2]

theorem cut_step (c : Char) (hc : c ≠ NUL) (uri : List Char) (n : Nat)
    (hn : n ≤ uri.length) :
    (match strchr uri c with
      | some q => MIN n q
      | none => n) = min n (uri.takeWhile (fun d => d != c)).length := by
  rw [strchr_eq c hc uri]
  by_cases hm : c ∈ uri
  · simp only [hm, if_true, MIN]
    split <;> omega
  · simp only [hm, if_false]
    rw [takeWhile_not_mem c uri hm]
    omega

theorem stripped_length (uri : List Char) :
    min (uri.takeWhile (fun d => d != '?')).length (uri.takeWhile (fun d => d != '#')).length
      = (stripped_uri uri).length := by
  unfold stripped_uri
  induction uri with
  | nil => simp
  | cons x xs ih =>
    by_cases h1 : x = '?'
    · simp [List.takeWhile_cons, h1]
    · by_cases h2 : x = '#'
      · simp [List.takeWhile_cons, h2]
      · have hp : (x != '?' && x != '#') = true := by simp [h1, h2]
        have hp1 : (x != '?') = true := by simp [h1]
        have hp2 : (x != '#') = true := by simp [h2]
        rw [List.takeWhile_cons_of_pos (p := fun c => c != '?' && c != '#') hp,
          List.takeWhile_cons_of_pos (p := fun d => d != '?') hp1,
          List.takeWhile_cons_of_pos (p := fun d => d != '#') hp2]
        simp only [List.length_cons]
        omega

theorem take_takeWhile {α : Type} (p : α → Bool) (l : List α) :
    l.take (l.takeWhile p).length = l.takeWhile p := by
  induction l with
  | nil => simp
  | cons x xs ih =>
    rw [List.takeWhile_cons]
    split
    · simp [ih]
    · simp

theorem get_path_from_uri_eq (dest : Mem) (base uri : List Char) (destsize : Nat)
    (hfit : base.length + uri.length + 1 < SIZE_MOD) :
    get_path_from_uri dest base uri destsize =
      if base.length + (stripped_uri uri).length + 1 > destsize then (dest, none)
      else (writeBytes dest 0 (base ++ stripped_uri uri ++ [NUL]), some base.length) := by
  have hq : ('?' : Char) ≠ NUL := by decide
  have hh : ('#' : Char) ≠ NUL := by decide
  have hle := takeWhile_length_le (fun c => c != '?' && c != '#') uri
  have hlen : (match strchr uri '#' with
      | some hash => MIN (match strchr uri '?' with
          | some quest => MIN (strlen uri) quest
          | none => strlen uri) hash
      | none => (match strchr uri '?' with
          | some quest => MIN (strlen uri) quest
          | none => strlen uri)) = (stripped_uri uri).length := by
    simp only [strlen]
    rw [cut_step '?' hq uri uri.length (Nat.le_refl _)]
    rw [cut_step '#' hh uri (min uri.length (uri.takeWhile (fun d => d != '?')).length)
      (Nat.min_le_left _ _)]
    rw [← stripped_length uri]
    have := takeWhile_length_le (fun d => d != '?') uri
    omega
  unfold get_path_from_uri
  simp only [hlen]
  have hs : (stripped_uri uri).length ≤ uri.length := hle
  have e1 : (strlen base + (stripped_uri uri).length + 1) % SIZE_MOD
      = base.length + (stripped_uri uri).length + 1 := by
    simp only [strlen]; exact Nat.mod_eq_of_lt (by omega)
  have e2 : ((stripped_uri uri).length + 1) % SIZE_MOD = (stripped_uri uri).length + 1 :=
    Nat.mod_eq_of_lt (by omega)
  rw [e1, e2]
  split
  · rfl
  · simp only [strcpy, strlcpy, strlen, Nat.add_one_ne_zero, if_false, Nat.add_sub_cancel]
    have : uri.take (stripped_uri uri).length = stripped_uri uri := take_takeWhile _ uri
    rw [this, writeBytes_overlap _ _ _ _ (by simp), List.append_assoc]

/-! ## Path resolver: what `get_path_from_uri` computes -/

theorem nulFree_takeWhile (p : Char → Bool) (s : List Char) (h : NulFree s) :
    NulFree (s.takeWhile p) :=
  fun c hc => h c (List.takeWhile_subset p hc)

theorem stripped_uri_of_clean (p : List Char) (h1 : '?' ∉ p) (h2 : '#' ∉ p) :
    stripped_uri p = p := by
  unfold stripped_uri
  rw [List.takeWhile_eq_self_iff]
  intro c hc
  have e1 : c ≠ '?' := fun e => h1 (e ▸ hc)
  have e2 : c ≠ '#' := fun e => h2 (e ▸ hc)
  simp [e1, e2]

theorem stripped_uri_append (p rest : List Char) (c : Char) (hc : c = '?' ∨ c = '#')
    (h1 : '?' ∉ p) (h2 : '#' ∉ p) : stripped_uri (p ++ c :: rest) = p := by
  unfold stripped_uri
  induction p with
  | nil => rcases hc with rfl | rfl <;> simp
  | cons x xs ih =>
    have e1 : x ≠ '?' := fun e => h1 (by simp [e])
    have e2 : x ≠ '#' := fun e => h2 (by simp [e])
    have ih' := ih (fun e => h1 (by simp [e])) (fun e => h2 (by simp [e]))
    simp [List.takeWhile_cons, e1, e2, ih']

theorem cstr_writeBytes (m : Mem) (s : List Char) (k n : Nat) (hs : NulFree s)
    (hk : k ≤ s.length) (hn : s.length - k < n) :
    cstr (writeBytes m 0 (s ++ [NUL])) k n = some (s.drop k) := by
  apply cstr_of_agree
  · intro j hj
    rw [List.length_drop] at hj
    have h1 : k + j < (s ++ [NUL]).length := by simp; omega
    have := writeBytes_in m 0 (s ++ [NUL]) (k + j) h1
    rw [Nat.zero_add] at this
    rw [this, List.getElem_append_left (by omega), List.getElem_drop]
  · rw [List.length_drop]
    have h1 : s.length < (s ++ [NUL]).length := by simp
    have := writeBytes_in m 0 (s ++ [NUL]) s.length h1
    rw [Nat.zero_add] at this
    have e : k + (s.length - k) = s.length := by omega
    rw [e, this]
    simp
  · exact fun c hc => hs c (List.mem_of_mem_drop hc)
  · rw [List.length_drop]; exact hn

/-- On success the destination is the initial buffer with `base ++ stripped_uri uri` and a
terminator stored from offset 0, and the returned offset is the length of the base. -/
theorem get_path_from_uri_success (dest dest' : Mem) (base uri : List Char)
    (destsize off : Nat) (hfit : base.length + uri.length + 1 < SIZE_MOD)
    (h : get_path_from_uri dest base uri destsize = (dest', some off)) :
    base.length + (stripped_uri uri).length + 1 ≤ destsize ∧
      dest' = writeBytes dest 0 (base ++ stripped_uri uri ++ [NUL]) ∧ off = base.length := by
  rw [get_path_from_uri_eq dest base uri destsize hfit] at h
  split at h
  · simp at h
  · rename_i hle
    simp only [Prod.mk.injEq, Option.some.injEq] at h
    exact ⟨by omega, h.1.symm, h.2.symm⟩

theorem nulFree_append (a b : List Char) (ha : NulFree a) (hb : NulFree b) :
    NulFree (a ++ b) := by
  intro c hc
  rcases List.mem_append.mp hc with h | h
  · exact ha c h
  · exact hb c h

/-- Reading back the resolved buffer: the whole path from offset 0 and the logical path
from the end of the base. -/
theorem cstr_resolved (dest : Mem) (base name : List Char) (size : Nat)
    (hb : NulFree base) (hn : NulFree name) (hsz : base.length + name.length + 1 ≤ size) :
    cstr (writeBytes dest 0 (base ++ name ++ [NUL])) 0 size = some (base ++ name) ∧
      cstr (writeBytes dest 0 (base ++ name ++ [NUL])) base.length (size - base.length)
        = some name := by
  have hnf := nulFree_append base name hb hn
  constructor
  · have := cstr_writeBytes dest (base ++ name) 0 size hnf (Nat.zero_le _)
      (by simp; omega)
    simpa using this
  · have := cstr_writeBytes dest (base ++ name) base.length (size - base.length) hnf
      (by simp) (by simp; omega)
    simpa using this

/-- C1: whenever `get_path_from_uri` succeeds, the destination buffer holds the base path
followed by the URI cut at the first `?` or `#`, and the returned pointer designates
exactly that cut URI; and a URI with a query or fragment suffix resolves exactly as the
URI without the suffix (same buffer, same result, same success or failure). -/
theorem get_path_from_uri_strips (dest : Mem) (base uri : List Char) (destsize : Nat)
    (hb : NulFree base) (hu : NulFree uri)
    (hfit : base.length + uri.length + 1 < SIZE_MOD) :
    (∀ dest' off, get_path_from_uri dest base uri destsize = (dest', some off) →
        cstr dest' 0 destsize = some (base ++ stripped_uri uri) ∧
        off = base.length ∧
        cstr dest' off (destsize - off) = some (stripped_uri uri)) ∧
    (∀ p c rest, uri = p ++ c :: rest → (c = '?' ∨ c = '#') → '?' ∉ p → '#' ∉ p →
        stripped_uri uri = p ∧
        get_path_from_uri dest base uri destsize = get_path_from_uri dest base p destsize) := by
  constructor
  · intro dest' off h
    obtain ⟨hle, hd, ho⟩ := get_path_from_uri_success dest dest' base uri destsize off hfit h
    have hr := cstr_resolved dest base (stripped_uri uri) destsize hb
      (nulFree_takeWhile _ uri hu) hle
    subst hd; subst ho
    exact ⟨hr.1, rfl, hr.2⟩
  · intro p c rest hur hc h1 h2
    have hs : stripped_uri uri = p := by rw [hur]; exact stripped_uri_append p rest c hc h1 h2
    have hp : NulFree p := fun d hd => hu d (by rw [hur]; simp [hd])
    have hpl : p.length ≤ uri.length := by rw [hur]; simp
    refine ⟨hs, ?_⟩
    rw [get_path_from_uri_eq dest base uri destsize hfit,
      get_path_from_uri_eq dest base p destsize (by omega), hs,
      stripped_uri_of_clean p h1 h2]

/-- Base `/spiffs`, URI `/a?b=1#c`, capacity 47: the buffer holds `/spiffs/a`, the logical
path is `/a`, and the URI `/a` resolves identically. -/
theorem get_path_from_uri_strips_witness :
    cstr (get_path_from_uri (fun _ => 'x') "/spiffs".toList "/a?b=1#c".toList 47).1 0 47
        = some "/spiffs/a".toList ∧
      cstr (get_path_from_uri (fun _ => 'x') "/spiffs".toList "/a?b=1#c".toList 47).1 7 (47 - 7)
        = some "/a".toList ∧
      get_path_from_uri (fun _ => 'x') "/spiffs".toList "/a?b=1#c".toList 47
        = get_path_from_uri (fun _ => 'x') "/spiffs".toList "/a".toList 47 :=
  have h := get_path_from_uri_strips (fun _ => 'x') "/spiffs".toList "/a?b=1#c".toList 47
    (by decide) (by decide) (by decide)
  have h1 := h.1 (get_path_from_uri (fun _ => 'x') "/spiffs".toList "/a?b=1#c".toList 47).1 7
    (Prod.ext rfl (by decide))
  ⟨h1.1, h1.2.2, (h.2 "/a".toList '?' "b=1#c".toList (by decide) (Or.inl rfl) (by decide)
    (by decide)).2⟩

/-- C2: `get_path_from_uri` returns `NULL` exactly when
`len(base) + len(stripped_uri) + 1 > capacity`; when it succeeds the string written is
`base ++ stripped_uri` in full, it fits the capacity together with its terminator, and no
byte at or beyond the capacity is changed. -/
theorem get_path_from_uri_null_iff (dest : Mem) (base uri : List Char) (destsize : Nat)
    (hb : NulFree base) (hu : NulFree uri)
    (hfit : base.length + uri.length + 1 < SIZE_MOD) :
    ((get_path_from_uri dest base uri destsize).2 = none ↔
        base.length + (stripped_uri uri).length + 1 > destsize) ∧
    ((get_path_from_uri dest base uri destsize).2 ≠ none →
        cstr (get_path_from_uri dest base uri destsize).1 0 destsize
          = some (base ++ stripped_uri uri) ∧
        (base ++ stripped_uri uri).length + 1 ≤ destsize ∧
        ∀ i, destsize ≤ i → (get_path_from_uri dest base uri destsize).1 i = dest i) := by
  rw [get_path_from_uri_eq dest base uri destsize hfit]
  by_cases h : base.length + (stripped_uri uri).length + 1 > destsize
  · simp [h]
  · simp only [h, if_false]
    refine ⟨by simp, fun _ => ?_⟩
    have hle : base.length + (stripped_uri uri).length + 1 ≤ destsize := by omega
    refine ⟨(cstr_resolved dest base (stripped_uri uri) destsize hb
      (nulFree_takeWhile _ uri hu) hle).1, by simpa using hle, fun i hi => ?_⟩
    apply writeBytes_ge
    simp; omega

/-- Base `/spiffs`, URI `/a?b=1#c`, capacity 10: 7 + 2 + 1 bytes are needed, resolution
succeeds and the buffer holds `/spiffs/a`. -/
theorem get_path_from_uri_null_iff_witness :
    ¬ ((get_path_from_uri (fun _ => 'x') "/spiffs".toList "/a?b=1#c".toList 10).2 = none) ∧
      cstr (get_path_from_uri (fun _ => 'x') "/spiffs".toList "/a?b=1#c".toList 10).1 0 10
        = some ("/spiffs".toList ++ stripped_uri "/a?b=1#c".toList) ∧
      ("/spiffs".toList ++ stripped_uri "/a?b=1#c".toList).length + 1 ≤ 10 :=
  have h := get_path_from_uri_null_iff (fun _ => 'x') "/spiffs".toList "/a?b=1#c".toList 10
    (by decide) (by decide) (by decide)
  have hne : ¬ ((get_path_from_uri (fun _ => 'x') "/spiffs".toList "/a?b=1#c".toList 10).2
      = none) := fun e => absurd (h.1.mp e) (by decide)
  ⟨hne, (h.2 hne).1, (h.2 hne).2.1⟩

/-- C3, refuted as stated: with base `/spiffs`, URI `/a?bcdefgh` and capacity 10 the
lengths of base and URI as passed give 7 + 10 + 1 > 10, yet resolution succeeds, because
only the two characters before the `?` count. -/
theorem get_path_from_uri_long_query_succeeds :
    "/spiffs".toList.length + "/a?bcdefgh".toList.length + 1 > 10 ∧
      (get_path_from_uri (fun _ => 'x') "/spiffs".toList "/a?bcdefgh".toList 10).2 = some 7 ∧
      cstr (get_path_from_uri (fun _ => 'x') "/spiffs".toList "/a?bcdefgh".toList 10).1 0 10
        = some "/spiffs/a".toList := by
  decide

/-- C3, amended: when `len(base) + len(stripped_uri) + 1 > capacity`, where `stripped_uri`
is the URI cut at the first `?` or `#`, `get_path_from_uri` fails and leaves the whole
destination untouched; and for every base and URI, failing or not, no byte at or beyond
index `capacity` of the destination is written. -/
theorem get_path_from_uri_bounded (dest : Mem) (base uri : List Char) (destsize : Nat)
    (hfit : base.length + uri.length + 1 < SIZE_MOD) :
    (base.length + (stripped_uri uri).length + 1 > destsize →
        (get_path_from_uri dest base uri destsize).2 = none ∧
        ∀ i, (get_path_from_uri dest base uri destsize).1 i = dest i) ∧
    (∀ i, destsize ≤ i → (get_path_from_uri dest base uri destsize).1 i = dest i) := by
  rw [get_path_from_uri_eq dest base uri destsize hfit]
  by_cases h : base.length + (stripped_uri uri).length + 1 > destsize
  · simp [h]
  · simp only [h, if_false, false_implies, true_and]
    intro i hi
    apply writeBytes_ge
    simp; omega

/-- Base `/spiffs`, URI `/abc?d`, capacity 10: 7 + 4 + 1 bytes are needed, resolution
fails, and offset 10 keeps its byte. -/
theorem get_path_from_uri_bounded_witness :
    (get_path_from_uri (fun _ => 'x') "/spiffs".toList "/abc?d".toList 10).2 = none ∧
      (get_path_from_uri (fun _ => 'x') "/spiffs".toList "/abc?d".toList 10).1 10 = 'x' :=
  have h := get_path_from_uri_bounded (fun _ => 'x') "/spiffs".toList "/abc?d".toList 10
    (by decide)
  ⟨(h.1 (by decide)).1, h.2 10 (Nat.le_refl _)⟩

/-! ## Comparisons -/

theorem toNat_ne_zero_of_ne_NUL (c : Char) (h : c ≠ NUL) : (c.toNat : Int) ≠ 0 := by
  intro e
  apply h
  have e' : c.toNat = 0 := by exact_mod_cast e
  have := Char.ofNat_toNat c
  rw [e'] at this
  exact this.symm

theorem toNat_sub_ne_zero (a b : Char) (h : a ≠ b) : (a.toNat : Int) - (b.toNat : Int) ≠ 0 := by
  intro e
  apply h
  have e' : a.toNat = b.toNat := by omega
  have ha := Char.ofNat_toNat a
  have hb := Char.ofNat_toNat b
  rw [← ha, ← hb, e']

theorem strcmp_eq_zero_iff : ∀ (a b : List Char), NulFree a → NulFree b →
    (strcmp a b = 0 ↔ a = b) := by
  intro a
  induction a with
  | nil =>
    intro b _ hb
    cases b with
    | nil => simp [strcmp]
    | cons y ys =>
      have := toNat_ne_zero_of_ne_NUL y (hb y (by simp))
      simp only [strcmp]
      constructor
      · intro h; omega
      · intro h; cases h
  | cons x xs ih =>
    intro b ha hb
    cases b with
    | nil =>
      have := toNat_ne_zero_of_ne_NUL x (ha x (by simp))
      simp only [strcmp]
      constructor
      · intro h; exact absurd h this
      · intro h; cases h
    | cons y ys =>
      simp only [strcmp]
      by_cases hxy : x = y
      · subst hxy
        simp only [if_true, List.cons.injEq, true_and]
        exact ih ys (fun d hd => ha d (by simp [hd])) (fun d hd => hb d (by simp [hd]))
      · simp only [hxy, if_false, List.cons.injEq, false_and, iff_false]
        exact toNat_sub_ne_zero x y hxy

/-! ## File handler: routing -/

theorem resolved_at_name (filepath0 : Mem) (base uri : List Char) (j : Nat)
    (hj : j < (stripped_uri uri).length) :
    resolved filepath0 base uri (base.length + j) = (stripped_uri uri)[j] := by
  have hl : base.length + j < (base ++ stripped_uri uri ++ [NUL]).length := by
    simp only [List.length_append, List.length_singleton]; omega
  have := writeBytes_in filepath0 0 (base ++ stripped_uri uri ++ [NUL]) _ hl
  rw [Nat.zero_add] at this
  unfold resolved
  rw [this, List.getElem_append_left (by simp only [List.length_append]; omega),
    List.getElem_append_right (by omega)]
  simp

theorem resolved_at_base (filepath0 : Mem) (base uri : List Char) (j : Nat)
    (hj : j < base.length) :
    resolved filepath0 base uri j = base[j] := by
  have hl : j < (base ++ stripped_uri uri ++ [NUL]).length := by
    simp only [List.length_append, List.length_singleton]; omega
  have := writeBytes_in filepath0 0 (base ++ stripped_uri uri ++ [NUL]) _ hl
  rw [Nat.zero_add] at this
  unfold resolved
  rw [this, List.getElem_append_left (by simp only [List.length_append]; omega),
    List.getElem_append_left hj]

/-- The handler after a successful resolution, with the reads of `filepath` replaced by
the strings they deliver. -/
theorem download_get_handler_resolved (FILE_PATH_MAX : Nat) (base : List Char)
    (emb : Embedded) (fs : FileSystem) (send_ok : Nat → Bool) (filepath0 : Mem)
    (uri : List Char) (hb : NulFree base) (hu : NulFree uri)
    (hfit : base.length + uri.length + 1 < SIZE_MOD)
    (hres : base.length + (stripped_uri uri).length + 1 ≤ FILE_PATH_MAX) :
    download_get_handler FILE_PATH_MAX ⟨base⟩ emb fs send_ok filepath0 uri =
      if (base.length : Int) + (((stripped_uri uri).length : Int) - 1) < 0 then none
      else if resolved filepath0 base uri
          ((base.length : Int) + (((stripped_uri uri).length : Int) - 1)).toNat = '/' then
        some (http_resp_index_html emb)
      else if stripped_uri uri = "/style.css".toList then some (http_resp_style_css emb)
      else if stripped_uri uri = "/robots.txt".toList then some (http_resp_robots_txt emb)
      else
        match fs (base ++ stripped_uri uri) with
        | none =>
          if stripped_uri uri = "/index.html".toList then
            some ⟨.ESP_OK, .stat (base ++ stripped_uri uri) :: index_html_get_handler.trace⟩
          else if stripped_uri uri = "/favicon.ico".toList then
            some ⟨.ESP_OK, .stat (base ++ stripped_uri uri) :: (favicon_get_handler emb).trace⟩
          else if stripped_uri uri = "/Ubuntu.woff2".toList then
            some ⟨.ESP_OK, .stat (base ++ stripped_uri uri) :: (font_get_handler emb).trace⟩
          else
            some ⟨.ESP_FAIL, [.stat (base ++ stripped_uri uri),
              .httpd_resp_send_err 404 "File does not exist"]⟩
        | some file =>
          if file.readable then
            match set_content_type_from_file (resolved filepath0 base uri) FILE_PATH_MAX
                base.length with
            | none => none
            | some ctype =>
              some ⟨(stream_file send_ok 0 file.content).ret,
                .stat (base ++ stripped_uri uri) :: .fopen (base ++ stripped_uri uri) ::
                  .httpd_resp_set_type ctype :: (stream_file send_ok 0 file.content).trace⟩
          else
            some ⟨.ESP_FAIL, [.stat (base ++ stripped_uri uri),
              .fopen (base ++ stripped_uri uri),
              .httpd_resp_send_err 500 "Failed to read existing file"]⟩ := by
  have hn : NulFree (stripped_uri uri) := nulFree_takeWhile _ uri hu
  have hr := cstr_resolved filepath0 base (stripped_uri uri) FILE_PATH_MAX hb hn hres
  have e1 := strcmp_eq_zero_iff (stripped_uri uri) "/style.css".toList hn (by decide)
  have e2 := strcmp_eq_zero_iff (stripped_uri uri) "/robots.txt".toList hn (by decide)
  have e3 := strcmp_eq_zero_iff (stripped_uri uri) "/index.html".toList hn (by decide)
  have e4 := strcmp_eq_zero_iff (stripped_uri uri) "/favicon.ico".toList hn (by decide)
  have e5 := strcmp_eq_zero_iff (stripped_uri uri) "/Ubuntu.woff2".toList hn (by decide)
  unfold download_get_handler
  rw [get_path_from_uri_eq filepath0 base uri FILE_PATH_MAX hfit]
  have hng : ¬ (base.length + (stripped_uri uri).length + 1 > FILE_PATH_MAX) := by omega
  simp only [hng, if_false]
  unfold resolved
  simp only [hr.1, hr.2, strlen, e1, e2, e3, e4, e5]
  rfl

theorem resolution_fits (FILE_PATH_MAX : Nat) (base uri : List Char) (filepath0 : Mem)
    (hfit : base.length + uri.length + 1 < SIZE_MOD)
    (hres : (get_path_from_uri filepath0 base uri FILE_PATH_MAX).2 ≠ none) :
    base.length + (stripped_uri uri).length + 1 ≤ FILE_PATH_MAX := by
  rw [get_path_from_uri_eq filepath0 base uri FILE_PATH_MAX hfit] at hres
  by_cases h : base.length + (stripped_uri uri).length + 1 > FILE_PATH_MAX
  · simp [h] at hres
  · omega

/-- For a non-empty logical path the character the handler tests against `/` is the last
character of that path. -/
theorem resolved_last_name (filepath0 : Mem) (base uri : List Char)
    (h : stripped_uri uri ≠ []) :
    ¬ ((base.length : Int) + (((stripped_uri uri).length : Int) - 1) < 0) ∧
      (stripped_uri uri).getLast? = some (resolved filepath0 base uri
        ((base.length : Int) + (((stripped_uri uri).length : Int) - 1)).toNat) := by
  have hpos : 0 < (stripped_uri uri).length := List.length_pos.mpr h
  have e : ((base.length : Int) + (((stripped_uri uri).length : Int) - 1)).toNat
      = base.length + ((stripped_uri uri).length - 1) := by omega
  refine ⟨by omega, ?_⟩
  rw [e, resolved_at_name filepath0 base uri _ (by omega), List.getLast?_eq_getElem?,
    List.getElem?_eq_getElem (by omega)]

/-- C5: when resolution succeeds and the logical path ends in `/`, or is `/style.css`, or
is `/robots.txt`, `download_get_handler` answers with the embedded index page, stylesheet
or robots file respectively and returns `ESP_OK`, whatever the filesystem holds: the
answer involves no `stat` and no `fopen`. -/
theorem download_get_handler_embedded_first (FILE_PATH_MAX : Nat) (base : List Char)
    (emb : Embedded) (filepath0 : Mem) (uri : List Char)
    (hb : NulFree base) (hu : NulFree uri)
    (hfit : base.length + uri.length + 1 < SIZE_MOD)
    (hres : (get_path_from_uri filepath0 base uri FILE_PATH_MAX).2 ≠ none) :
    ((stripped_uri uri).getLast? = some '/' → ∀ (fs : FileSystem) (send_ok : Nat → Bool),
        download_get_handler FILE_PATH_MAX ⟨base⟩ emb fs send_ok filepath0 uri =
          some ⟨.ESP_OK, [.httpd_resp_send_chunk emb.index_html,
            .httpd_resp_send_chunk []]⟩) ∧
    (stripped_uri uri = "/style.css".toList → ∀ (fs : FileSystem) (send_ok : Nat → Bool),
        download_get_handler FILE_PATH_MAX ⟨base⟩ emb fs send_ok filepath0 uri =
          some ⟨.ESP_OK, [.httpd_resp_set_type "text/css",
            .httpd_resp_send_chunk emb.style_css, .httpd_resp_send_chunk []]⟩) ∧
    (stripped_uri uri = "/robots.txt".toList → ∀ (fs : FileSystem) (send_ok : Nat → Bool),
        download_get_handler FILE_PATH_MAX ⟨base⟩ emb fs send_ok filepath0 uri =
          some ⟨.ESP_OK, [.httpd_resp_send_chunk emb.robots_txt,
            .httpd_resp_send_chunk []]⟩) := by
  have hle := resolution_fits FILE_PATH_MAX base uri filepath0 hfit hres
  refine ⟨?_, ?_, ?_⟩
  · intro hl fs send_ok
    have hne : stripped_uri uri ≠ [] := by
      intro e; rw [e] at hl; simp at hl
    obtain ⟨h0, h1⟩ := resolved_last_name filepath0 base uri hne
    have h2 := Option.some.inj (h1.symm.trans hl)
    rw [download_get_handler_resolved FILE_PATH_MAX base emb fs send_ok filepath0 uri hb hu
      hfit hle]
    simp only [h0, if_false, h2, if_true, http_resp_index_html]
  · intro hs fs send_ok
    have hne : stripped_uri uri ≠ [] := by rw [hs]; decide
    obtain ⟨h0, h1⟩ := resolved_last_name filepath0 base uri hne
    have h2 : ¬ (resolved filepath0 base uri
        ((base.length : Int) + (((stripped_uri uri).length : Int) - 1)).toNat = '/') := by
      intro e
      rw [e, hs] at h1
      exact absurd h1 (by decide)
    rw [download_get_handler_resolved FILE_PATH_MAX base emb fs send_ok filepath0 uri hb hu
      hfit hle]
    simp only [h0, if_false, h2]
    simp only [hs, if_true, http_resp_style_css]
  · intro hs fs send_ok
    have hne : stripped_uri uri ≠ [] := by rw [hs]; decide
    obtain ⟨h0, h1⟩ := resolved_last_name filepath0 base uri hne
    have h2 : ¬ (resolved filepath0 base uri
        ((base.length : Int) + (((stripped_uri uri).length : Int) - 1)).toNat = '/') := by
      intro e
      rw [e, hs] at h1
      exact absurd h1 (by decide)
    have h3 : ¬ ("/robots.txt".toList = "/style.css".toList) := by decide
    rw [download_get_handler_resolved FILE_PATH_MAX base emb fs send_ok filepath0 uri hb hu
      hfit hle]
    simp only [h0, if_false, h2]
    simp only [hs, h3, if_false, if_true, http_resp_robots_txt]

/-- GET `/style.css?v=2` with a readable file behind every path: the embedded stylesheet
is sent. -/
theorem download_get_handler_embedded_first_witness :
    download_get_handler 47 ⟨"/spiffs".toList⟩ ⟨"<html>".toList, "robots".toList,
        "body".toList, "ico".toList, "font".toList⟩
        (fun _ => some ⟨true, "from flash".toList⟩) (fun _ => true) (fun _ => 'x')
        "/style.css?v=2".toList
      = some ⟨.ESP_OK, [.httpd_resp_set_type "text/css",
          .httpd_resp_send_chunk "body".toList, .httpd_resp_send_chunk []]⟩ :=
  (download_get_handler_embedded_first 47 "/spiffs".toList ⟨"<html>".toList,
      "robots".toList, "body".toList, "ico".toList, "font".toList⟩ (fun _ => 'x')
      "/style.css?v=2".toList (by decide) (by decide) (by decide) (by decide)).2.1
    (by decide) (fun _ => some ⟨true, "from flash".toList⟩) (fun _ => true)

/-! ## Content type inside the handler -/

theorem IS_FILE_EXT_resolved (FILE_PATH_MAX : Nat) (base uri : List Char) (filepath0 : Mem)
    (ext : List Char) (hb : NulFree base) (hu : NulFree uri)
    (hres : base.length + (stripped_uri uri).length + 1 ≤ FILE_PATH_MAX)
    (hext : ext.length ≤ base.length + (stripped_uri uri).length) :
    IS_FILE_EXT (resolved filepath0 base uri) FILE_PATH_MAX base.length ext =
      some (strcasecmp ((base ++ stripped_uri uri).drop
        (base.length + (stripped_uri uri).length - ext.length)) ext == 0) := by
  have hn : NulFree (stripped_uri uri) := nulFree_takeWhile _ uri hu
  have hr := cstr_resolved filepath0 base (stripped_uri uri) FILE_PATH_MAX hb hn hres
  have hnf := nulFree_append base (stripped_uri uri) hb hn
  have e : ((base.length : Int) + IS_FILE_EXT_index (stripped_uri uri).length ext).toNat
      = base.length + (stripped_uri uri).length - ext.length := by
    unfold IS_FILE_EXT_index; omega
  have h0 : ¬ ((base.length : Int) + IS_FILE_EXT_index (stripped_uri uri).length ext < 0) := by
    unfold IS_FILE_EXT_index; omega
  have hc := cstr_writeBytes filepath0 (base ++ stripped_uri uri)
    (base.length + (stripped_uri uri).length - ext.length)
    (FILE_PATH_MAX - (base.length + (stripped_uri uri).length - ext.length)) hnf
    (by simp) (by simp only [List.length_append]; omega)
  unfold IS_FILE_EXT
  unfold resolved at *
  simp only [hr.2, strlen, h0, if_false, e, hc]

theorem set_content_type_from_file_resolved (FILE_PATH_MAX : Nat) (base uri : List Char)
    (filepath0 : Mem) (hb : NulFree base) (hu : NulFree uri)
    (hres : base.length + (stripped_uri uri).length + 1 ≤ FILE_PATH_MAX)
    (hlen : 5 ≤ base.length + (stripped_uri uri).length) :
    ∃ ctype, set_content_type_from_file (resolved filepath0 base uri) FILE_PATH_MAX
      base.length = some ctype := by
  have l1 : ".pdf".toList.length = 4 := by decide
  have l2 : ".html".toList.length = 5 := by decide
  have l3 : ".jpeg".toList.length = 5 := by decide
  have l4 : ".ico".toList.length = 4 := by decide
  unfold set_content_type_from_file
  rw [IS_FILE_EXT_resolved FILE_PATH_MAX base uri filepath0 _ hb hu hres (by omega),
    IS_FILE_EXT_resolved FILE_PATH_MAX base uri filepath0 _ hb hu hres (by omega),
    IS_FILE_EXT_resolved FILE_PATH_MAX base uri filepath0 _ hb hu hres (by omega),
    IS_FILE_EXT_resolved FILE_PATH_MAX base uri filepath0 _ hb hu hres (by omega)]
  generalize (strcasecmp _ ".pdf".toList == 0) = b1
  generalize (strcasecmp _ ".html".toList == 0) = b2
  generalize (strcasecmp _ ".jpeg".toList == 0) = b3
  generalize (strcasecmp _ ".ico".toList == 0) = b4
  cases b1 <;> cases b2 <;> cases b3 <;> cases b4 <;> exact ⟨_, rfl⟩

/-! ## Streaming loop -/

theorem stream_file_nil (send_ok : Nat → Bool) (k : Nat) :
    stream_file send_ok k [] = ⟨.ESP_OK, [.fclose, .httpd_resp_send_chunk []]⟩ := by
  rw [stream_file]; simp

theorem stream_file_cons_ok (send_ok : Nat → Bool) (k : Nat) (rest : List Char)
    (hne : rest ≠ []) (hok : send_ok k = true) :
    stream_file send_ok k rest =
      ⟨(stream_file send_ok (k + 1) (rest.drop SCRATCH_BUFSIZE)).ret,
        .httpd_resp_send_chunk (rest.take SCRATCH_BUFSIZE) ::
          (stream_file send_ok (k + 1) (rest.drop SCRATCH_BUFSIZE)).trace⟩ := by
  have hpos : 0 < (rest.take SCRATCH_BUFSIZE).length := by
    have := List.length_pos.mpr hne
    simp only [List.length_take, SCRATCH_BUFSIZE]; omega
  rw [stream_file]
  simp only [hpos, dif_pos, hok, if_true]

theorem stream_file_cons_fail (send_ok : Nat → Bool) (k : Nat) (rest : List Char)
    (hne : rest ≠ []) (hok : send_ok k = false) :
    stream_file send_ok k rest =
      ⟨.ESP_FAIL, [.httpd_resp_send_chunk (rest.take SCRATCH_BUFSIZE), .fclose,
        .httpd_resp_send_chunk [], .httpd_resp_send_err 500 "Failed to send file"]⟩ := by
  have hpos : 0 < (rest.take SCRATCH_BUFSIZE).length := by
    have := List.length_pos.mpr hne
    simp only [List.length_take, SCRATCH_BUFSIZE]; omega
  rw [stream_file]
  simp only [hpos, dif_pos, hok, Bool.false_eq_true, if_false]

theorem take_chunk_bounds (rest : List Char) (hne : rest ≠ []) :
    0 < (rest.take SCRATCH_BUFSIZE).length ∧
      (rest.take SCRATCH_BUFSIZE).length ≤ SCRATCH_BUFSIZE := by
  have := List.length_pos.mpr hne
  simp only [List.length_take, SCRATCH_BUFSIZE]; omega

/-- When every transmission succeeds the loop ends, having sent the file in order in
non-empty chunks of at most `SCRATCH_BUFSIZE` bytes. -/
theorem stream_file_all_ok (send_ok : Nat → Bool) (hok : ∀ j, send_ok j = true) :
    ∀ (n : Nat) (rest : List Char) (k : Nat), rest.length = n →
      ∃ chunks : List (List Char),
        stream_file send_ok k rest =
          ⟨.ESP_OK, chunks.map Event.httpd_resp_send_chunk ++
            [.fclose, .httpd_resp_send_chunk []]⟩ ∧
        (∀ c ∈ chunks, 0 < c.length ∧ c.length ≤ SCRATCH_BUFSIZE) ∧
        chunks.flatten = rest := by
  intro n
  induction n using Nat.strong_induction_on with
  | _ n ih =>
    intro rest k hlen
    by_cases hne : rest = []
    · subst hne
      exact ⟨[], by rw [stream_file_nil]; rfl, by simp, rfl⟩
    · have hb := take_chunk_bounds rest hne
      have hlt : (rest.drop SCRATCH_BUFSIZE).length < n := by
        have := List.length_pos.mpr hne
        simp only [List.length_drop, SCRATCH_BUFSIZE]; omega
      obtain ⟨cs, h1, h2, h3⟩ := ih _ hlt (rest.drop SCRATCH_BUFSIZE) (k + 1) rfl
      refine ⟨rest.take SCRATCH_BUFSIZE :: cs, ?_, ?_, ?_⟩
      · rw [stream_file_cons_ok send_ok k rest hne (hok k), h1]; rfl
      · intro c hc
        rcases List.mem_cons.mp hc with e | e
        · rw [e]; exact hb
        · exact h2 c e
      · rw [List.flatten_cons, h3, List.take_append_drop]

/-- When transmission number `k + n` is the first to fail, the chunk it carried is the
last file chunk sent; the file is closed, the empty chunk and the 500 error follow. -/
theorem stream_file_first_failure (send_ok : Nat → Bool) :
    ∀ (n : Nat) (rest : List Char) (k : Nat),
      (∀ j, j < n → send_ok (k + j) = true) → send_ok (k + n) = false →
      n * SCRATCH_BUFSIZE < rest.length →
      ∃ chunks : List (List Char),
        stream_file send_ok k rest =
          ⟨.ESP_FAIL, chunks.map Event.httpd_resp_send_chunk ++
            [.fclose, .httpd_resp_send_chunk [],
              .httpd_resp_send_err 500 "Failed to send file"]⟩ ∧
        chunks.length = n + 1 ∧
        (∀ c ∈ chunks, 0 < c.length ∧ c.length ≤ SCRATCH_BUFSIZE) ∧
        chunks.flatten = rest.take ((n + 1) * SCRATCH_BUFSIZE) := by
  intro n
  induction n with
  | zero =>
    intro rest k _ hfail hlen
    have hne : rest ≠ [] := by
      intro e; rw [e] at hlen; simp at hlen
    refine ⟨[rest.take SCRATCH_BUFSIZE], ?_, rfl, ?_, ?_⟩
    · rw [stream_file_cons_fail send_ok k rest hne (by simpa using hfail)]; rfl
    · intro c hc
      rw [List.mem_singleton.mp hc]; exact take_chunk_bounds rest hne
    · simp
  | succ n ih =>
    intro rest k hok hfail hlen
    have hne : rest ≠ [] := by
      intro e; rw [e] at hlen; simp at hlen
    have hk : send_ok k = true := by simpa using hok 0 (Nat.succ_pos n)
    obtain ⟨cs, h1, h2, h3, h4⟩ := ih (rest.drop SCRATCH_BUFSIZE) (k + 1)
      (fun j hj => by
        have := hok (j + 1) (by omega)
        rwa [show k + (j + 1) = k + 1 + j by omega] at this)
      (by rwa [show k + (n + 1) = k + 1 + n by omega] at hfail)
      (by
        rw [List.length_drop]
        have : (n + 1) * SCRATCH_BUFSIZE = n * SCRATCH_BUFSIZE + SCRATCH_BUFSIZE := by ring
        omega)
    refine ⟨rest.take SCRATCH_BUFSIZE :: cs, ?_, by simp [h2], ?_, ?_⟩
    · rw [stream_file_cons_ok send_ok k rest hne hk, h1]; rfl
    · intro c hc
      rcases List.mem_cons.mp hc with e | e
      · rw [e]; exact take_chunk_bounds rest hne
      · exact h3 c e
    · rw [List.flatten_cons, h4]
      have e : (n + 1 + 1) * SCRATCH_BUFSIZE = SCRATCH_BUFSIZE + (n + 1) * SCRATCH_BUFSIZE := by
        ring
      rw [e, List.take_add]

/-! ## File handler: paths that are not served from the firmware image first -/

/-- With the base path `/spiffs`, for a logical path that is not a trailing-slash path,
`/style.css` or `/robots.txt`, the handler goes on to `stat`. -/
theorem download_get_handler_other (FILE_PATH_MAX : Nat) (emb : Embedded) (fs : FileSystem)
    (send_ok : Nat → Bool) (filepath0 : Mem) (uri : List Char) (hu : NulFree uri)
    (hfit : "/spiffs".toList.length + uri.length + 1 < SIZE_MOD)
    (hres : (get_path_from_uri filepath0 "/spiffs".toList uri FILE_PATH_MAX).2 ≠ none)
    (hslash : (stripped_uri uri).getLast? ≠ some '/')
    (hstyle : stripped_uri uri ≠ "/style.css".toList)
    (hrobots : stripped_uri uri ≠ "/robots.txt".toList) :
    ∃ ctype,
      download_get_handler FILE_PATH_MAX ⟨"/spiffs".toList⟩ emb fs send_ok filepath0 uri =
        match fs ("/spiffs".toList ++ stripped_uri uri) with
        | none =>
          if stripped_uri uri = "/index.html".toList then
            some ⟨.ESP_OK, .stat ("/spiffs".toList ++ stripped_uri uri) ::
              index_html_get_handler.trace⟩
          else if stripped_uri uri = "/favicon.ico".toList then
            some ⟨.ESP_OK, .stat ("/spiffs".toList ++ stripped_uri uri) ::
              (favicon_get_handler emb).trace⟩
          else if stripped_uri uri = "/Ubuntu.woff2".toList then
            some ⟨.ESP_OK, .stat ("/spiffs".toList ++ stripped_uri uri) ::
              (font_get_handler emb).trace⟩
          else
            some ⟨.ESP_FAIL, [.stat ("/spiffs".toList ++ stripped_uri uri),
              .httpd_resp_send_err 404 "File does not exist"]⟩
        | some file =>
          if file.readable then
            some ⟨(stream_file send_ok 0 file.content).ret,
              .stat ("/spiffs".toList ++ stripped_uri uri) ::
                .fopen ("/spiffs".toList ++ stripped_uri uri) ::
                .httpd_resp_set_type ctype :: (stream_file send_ok 0 file.content).trace⟩
          else
            some ⟨.ESP_FAIL, [.stat ("/spiffs".toList ++ stripped_uri uri),
              .fopen ("/spiffs".toList ++ stripped_uri uri),
              .httpd_resp_send_err 500 "Failed to read existing file"]⟩ := by
  have hb : NulFree "/spiffs".toList := by decide
  have hl : "/spiffs".toList.length = 7 := by decide
  have hle := resolution_fits FILE_PATH_MAX "/spiffs".toList uri filepath0 hfit hres
  obtain ⟨ctype, hct⟩ := set_content_type_from_file_resolved FILE_PATH_MAX "/spiffs".toList
    uri filepath0 hb hu hle (by omega)
  refine ⟨ctype, ?_⟩
  have h0 : ¬ (("/spiffs".toList.length : Int)
      + (((stripped_uri uri).length : Int) - 1) < 0) := by omega
  have h1 : ¬ (resolved filepath0 "/spiffs".toList uri
      (("/spiffs".toList.length : Int) + (((stripped_uri uri).length : Int) - 1)).toNat
        = '/') := by
    by_cases hne : stripped_uri uri = []
    · have e : (("/spiffs".toList.length : Int)
          + (((stripped_uri uri).length : Int) - 1)).toNat = 6 := by
        rw [hne]; decide
      rw [e, resolved_at_base filepath0 "/spiffs".toList uri 6 (by decide)]
      decide
    · intro e
      have := (resolved_last_name filepath0 "/spiffs".toList uri hne).2
      rw [e] at this
      exact hslash this
  rw [download_get_handler_resolved FILE_PATH_MAX "/spiffs".toList emb fs send_ok filepath0
    uri hb hu hfit hle]
  simp only [h0, h1, hstyle, hrobots, if_false, hct]

/-- C6, refuted as stated: with `/index.html` absent from the filesystem the handler does
not serve the embedded index page; it answers `307 Temporary Redirect` to `/` with an empty
body. -/
theorem download_get_handler_index_html_redirects :
    download_get_handler 47 ⟨"/spiffs".toList⟩ ⟨"<html>".toList, "robots".toList,
        "body".toList, "ico".toList, "font".toList⟩
        (fun _ => none) (fun _ => true) (fun _ => 'x') "/index.html".toList
      = some ⟨.ESP_OK, [.stat "/spiffs/index.html".toList,
          .httpd_resp_set_status "307 Temporary Redirect",
          .httpd_resp_set_hdr "Location" "/", .httpd_resp_send []]⟩ := by
  decide

/-- C6, amended: with the base path `/spiffs` that `start_file_server` insists on, for
every resolved logical path that is not a trailing-slash path, `/style.css` or
`/robots.txt`: a file present on the filesystem is opened and, when the open succeeds,
streamed from the filesystem (a failed open gives 500); when the file is absent,
`/index.html` is answered with `307 Temporary Redirect` to `/` and an empty body,
`/favicon.ico` and `/Ubuntu.woff2` with the embedded favicon and font, and every other
path with 404 and `ESP_FAIL`. -/
theorem download_get_handler_fallback (FILE_PATH_MAX : Nat) (emb : Embedded)
    (fs : FileSystem) (send_ok : Nat → Bool) (filepath0 : Mem) (uri : List Char)
    (hu : NulFree uri)
    (hfit : "/spiffs".toList.length + uri.length + 1 < SIZE_MOD)
    (hres : (get_path_from_uri filepath0 "/spiffs".toList uri FILE_PATH_MAX).2 ≠ none)
    (hslash : (stripped_uri uri).getLast? ≠ some '/')
    (hstyle : stripped_uri uri ≠ "/style.css".toList)
    (hrobots : stripped_uri uri ≠ "/robots.txt".toList) :
    (∀ file, fs ("/spiffs".toList ++ stripped_uri uri) = some file →
      ∃ ctype,
        download_get_handler FILE_PATH_MAX ⟨"/spiffs".toList⟩ emb fs send_ok filepath0 uri =
          some (if file.readable then
            ⟨(stream_file send_ok 0 file.content).ret,
              .stat ("/spiffs".toList ++ stripped_uri uri) ::
                .fopen ("/spiffs".toList ++ stripped_uri uri) ::
                .httpd_resp_set_type ctype :: (stream_file send_ok 0 file.content).trace⟩
          else
            ⟨.ESP_FAIL, [.stat ("/spiffs".toList ++ stripped_uri uri),
              .fopen ("/spiffs".toList ++ stripped_uri uri),
              .httpd_resp_send_err 500 "Failed to read existing file"]⟩)) ∧
    (fs ("/spiffs".toList ++ stripped_uri uri) = none →
      (stripped_uri uri = "/index.html".toList →
        download_get_handler FILE_PATH_MAX ⟨"/spiffs".toList⟩ emb fs send_ok filepath0 uri =
          some ⟨.ESP_OK, [.stat ("/spiffs".toList ++ stripped_uri uri),
            .httpd_resp_set_status "307 Temporary Redirect",
            .httpd_resp_set_hdr "Location" "/", .httpd_resp_send []]⟩) ∧
      (stripped_uri uri = "/favicon.ico".toList →
        download_get_handler FILE_PATH_MAX ⟨"/spiffs".toList⟩ emb fs send_ok filepath0 uri =
          some ⟨.ESP_OK, [.stat ("/spiffs".toList ++ stripped_uri uri),
            .httpd_resp_set_type "image/x-icon", .httpd_resp_send emb.favicon_ico]⟩) ∧
      (stripped_uri uri = "/Ubuntu.woff2".toList →
        download_get_handler FILE_PATH_MAX ⟨"/spiffs".toList⟩ emb fs send_ok filepath0 uri =
          some ⟨.ESP_OK, [.stat ("/spiffs".toList ++ stripped_uri uri),
            .httpd_resp_set_type "font/woff2", .httpd_resp_send emb.Ubuntu_woff2]⟩) ∧
      (stripped_uri uri ≠ "/index.html".toList → stripped_uri uri ≠ "/favicon.ico".toList →
        stripped_uri uri ≠ "/Ubuntu.woff2".toList →
        download_get_handler FILE_PATH_MAX ⟨"/spiffs".toList⟩ emb fs send_ok filepath0 uri =
          some ⟨.ESP_FAIL, [.stat ("/spiffs".toList ++ stripped_uri uri),
            .httpd_resp_send_err 404 "File does not exist"]⟩)) := by
  obtain ⟨ctype, h⟩ := download_get_handler_other FILE_PATH_MAX emb fs send_ok filepath0 uri
    hu hfit hres hslash hstyle hrobots
  refine ⟨fun file hf => ⟨ctype, ?_⟩, fun hnone => ⟨?_, ?_, ?_, ?_⟩⟩
  · rw [h, hf]
    cases hrd : file.readable <;> simp [hrd]
  · intro e
    rw [h, hnone]
    simp only [e, if_true, index_html_get_handler]
  · intro e
    have e1 : ¬ ("/favicon.ico".toList = "/index.html".toList) := by decide
    rw [h, hnone]
    simp only [e, e1, if_false, if_true, favicon_get_handler]
  · intro e
    have e1 : ¬ ("/Ubuntu.woff2".toList = "/index.html".toList) := by decide
    have e2 : ¬ ("/Ubuntu.woff2".toList = "/favicon.ico".toList) := by decide
    rw [h, hnone]
    simp only [e, e1, e2, if_false, if_true, font_get_handler]
  · intro e1 e2 e3
    rw [h, hnone]
    simp only [e1, e2, e3, if_false]

/-- GET `/favicon.ico?x` on an empty filesystem: the embedded icon is sent after one
`stat`. -/
theorem download_get_handler_fallback_witness :
    download_get_handler 47 ⟨"/spiffs".toList⟩ ⟨"<html>".toList, "robots".toList,
        "body".toList, "ico".toList, "font".toList⟩
        (fun _ => none) (fun _ => true) (fun _ => 'x') "/favicon.ico?x".toList
      = some ⟨.ESP_OK, [.stat ("/spiffs".toList ++ stripped_uri "/favicon.ico?x".toList),
          .httpd_resp_set_type "image/x-icon", .httpd_resp_send "ico".toList]⟩ :=
  ((download_get_handler_fallback 47 ⟨"<html>".toList, "robots".toList, "body".toList,
      "ico".toList, "font".toList⟩ (fun _ => none) (fun _ => true) (fun _ => 'x')
      "/favicon.ico?x".toList (by decide) (by decide) (by decide) (by decide) (by decide)
      (by decide)).2 rfl).2.1 (by decide)

/-- C10: for a file that is present and opens, reached through the base path `/spiffs` by
a logical path that is not served from the firmware image first: when every chunk
transmission succeeds the handler returns `ESP_OK`, the chunks it sends are non-empty, at
most `SCRATCH_BUFSIZE` = 8192 bytes each and concatenate in order to the file content,
and they are followed by `fclose` and exactly one empty chunk; when transmission `n` is
the first to fail, the chunk it carried is the last file chunk, then come `fclose`, an
empty chunk and the 500 error, and the handler returns `ESP_FAIL`. -/
theorem download_get_handler_streams (FILE_PATH_MAX : Nat) (emb : Embedded)
    (fs : FileSystem) (send_ok : Nat → Bool) (filepath0 : Mem) (uri : List Char)
    (content : List Char) (hu : NulFree uri)
    (hfit : "/spiffs".toList.length + uri.length + 1 < SIZE_MOD)
    (hres : (get_path_from_uri filepath0 "/spiffs".toList uri FILE_PATH_MAX).2 ≠ none)
    (hslash : (stripped_uri uri).getLast? ≠ some '/')
    (hstyle : stripped_uri uri ≠ "/style.css".toList)
    (hrobots : stripped_uri uri ≠ "/robots.txt".toList)
    (hfile : fs ("/spiffs".toList ++ stripped_uri uri) = some ⟨true, content⟩) :
    ((∀ j, send_ok j = true) →
      ∃ (ctype : String) (chunks : List (List Char)),
        download_get_handler FILE_PATH_MAX ⟨"/spiffs".toList⟩ emb fs send_ok filepath0 uri =
          some ⟨.ESP_OK,
            .stat ("/spiffs".toList ++ stripped_uri uri) ::
            .fopen ("/spiffs".toList ++ stripped_uri uri) ::
            .httpd_resp_set_type ctype ::
            (chunks.map Event.httpd_resp_send_chunk ++
              [.fclose, .httpd_resp_send_chunk []])⟩ ∧
        (∀ c ∈ chunks, 0 < c.length ∧ c.length ≤ 8192) ∧
        chunks.flatten = content) ∧
    (∀ n, (∀ j, j < n → send_ok j = true) → send_ok n = false →
      n * 8192 < content.length →
      ∃ (ctype : String) (chunks : List (List Char)),
        download_get_handler FILE_PATH_MAX ⟨"/spiffs".toList⟩ emb fs send_ok filepath0 uri =
          some ⟨.ESP_FAIL,
            .stat ("/spiffs".toList ++ stripped_uri uri) ::
            .fopen ("/spiffs".toList ++ stripped_uri uri) ::
            .httpd_resp_set_type ctype ::
            (chunks.map Event.httpd_resp_send_chunk ++
              [.fclose, .httpd_resp_send_chunk [],
                .httpd_resp_send_err 500 "Failed to send file"])⟩ ∧
        chunks.length = n + 1 ∧
        (∀ c ∈ chunks, 0 < c.length ∧ c.length ≤ 8192) ∧
        chunks.flatten = content.take ((n + 1) * 8192)) := by
  obtain ⟨ctype, h⟩ := download_get_handler_other FILE_PATH_MAX emb fs send_ok filepath0 uri
    hu hfit hres hslash hstyle hrobots
  rw [hfile] at h
  simp only [if_true] at h
  constructor
  · intro hok
    obtain ⟨chunks, h1, h2, h3⟩ := stream_file_all_ok send_ok hok content.length content 0 rfl
    refine ⟨ctype, chunks, ?_, h2, h3⟩
    rw [h, h1]
  · intro n hok hfail hlen
    obtain ⟨chunks, h1, h2, h3, h4⟩ := stream_file_first_failure send_ok n content 0
      (fun j hj => by simpa using hok j hj) (by simpa using hfail) hlen
    refine ⟨ctype, chunks, ?_, h2, h3, h4⟩
    rw [h, h1]

/-- GET `/a.html` for a five-byte file with every transmission succeeding. -/
theorem download_get_handler_streams_witness :
    ∃ (ctype : String) (chunks : List (List Char)),
      download_get_handler 47 ⟨"/spiffs".toList⟩ ⟨"<html>".toList, "robots".toList,
          "body".toList, "ico".toList, "font".toList⟩
          (fun _ => some ⟨true, "hello".toList⟩) (fun _ => true) (fun _ => 'x')
          "/a.html".toList =
        some ⟨.ESP_OK,
          .stat ("/spiffs".toList ++ stripped_uri "/a.html".toList) ::
          .fopen ("/spiffs".toList ++ stripped_uri "/a.html".toList) ::
          .httpd_resp_set_type ctype ::
          (chunks.map Event.httpd_resp_send_chunk ++
            [.fclose, .httpd_resp_send_chunk []])⟩ ∧
      (∀ c ∈ chunks, 0 < c.length ∧ c.length ≤ 8192) ∧
      chunks.flatten = "hello".toList :=
  (download_get_handler_streams 47 ⟨"<html>".toList, "robots".toList, "body".toList,
      "ico".toList, "font".toList⟩ (fun _ => some ⟨true, "hello".toList⟩) (fun _ => true)
      (fun _ => 'x') "/a.html".toList "hello".toList (by decide) (by decide) (by decide)
      (by decide) (by decide) (by decide) rfl).1 (fun _ => rfl)

/-! ## Content type: short filenames -/

/-- C4, at the failing input `/a` (GET `/a`, the file present): `IS_FILE_EXT(filename,
".pdf")` starts comparing two bytes before `filename`, at offset 5 of `filepath` where the
filename starts at offset 7, so it compares `fs/a`, bytes of the base path included; given
the filename alone in an array of its own, the read starts before the array. -/
theorem IS_FILE_EXT_short_filename :
    (get_path_from_uri (fun _ => 'x') "/spiffs".toList "/a".toList 47).2 = some 7 ∧
      IS_FILE_EXT_index (strlen "/a".toList) ".pdf".toList = -2 ∧
      IS_FILE_EXT_index (strlen "/a".toList) ".html".toList = -3 ∧
      cstr (get_path_from_uri (fun _ => 'x') "/spiffs".toList "/a".toList 47).1 5 (47 - 5)
        = some "fs/a".toList ∧
      set_content_type_from_file
        (get_path_from_uri (fun _ => 'x') "/spiffs".toList "/a".toList 47).1 47 7
        = some "text/plain" ∧
      set_content_type_from_file (strcpy (fun _ => 'x') 0 "/a".toList) 3 0 = none := by
  decide

/-! ## API handler -/

/-- A non-positive receive result: the handler gives up at once. -/
theorem api_post_handler_of_nonpos {F : Type} (strtod : Mem → Option F) (zero : F)
    (recv : Nat → RecvResult) (uri : List Char) (content_len : Nat) (content0 : Mem)
    (vars : Setpoints F) (hle : (recv (MIN content_len 100)).ret ≤ 0) :
    (api_post_handler strtod zero recv uri content_len content0 vars).ret = .ESP_FAIL ∧
    (api_post_handler strtod zero recv uri content_len content0 vars).vars = vars ∧
    (api_post_handler strtod zero recv uri content_len content0 vars).trace.count
      Event.update_display = 0 := by
  unfold api_post_handler
  simp only []
  rw [if_pos hle]
  split
  · exact ⟨rfl, rfl, rfl⟩
  · exact ⟨rfl, rfl, rfl⟩

/-- A positive receive result: the handler dispatches on the URI, the `strcmp` tests being
tests for equality. -/
theorem api_post_handler_of_pos {F : Type} (strtod : Mem → Option F) (zero : F)
    (recv : Nat → RecvResult) (uri : List Char) (content_len : Nat) (content0 : Mem)
    (vars : Setpoints F) (hu : NulFree uri) (hpos : 0 < (recv (MIN content_len 100)).ret) :
    api_post_handler strtod zero recv uri content_len content0 vars =
      if uri = "/api/set_temp".toList then
        ⟨.ESP_OK, [.update_display, .httpd_resp_set_status "303 See Other",
            .httpd_resp_set_hdr "Location" "/",
            .httpd_resp_sendstr "post processed successfully"],
          ⟨vars.temp,
            atof strtod zero (writeBytes content0 0 (recv (MIN content_len 100)).data),
            vars.under, vars.over⟩⟩
      else if uri = "/api/set_upper_margin".toList then
        ⟨.ESP_OK, [.update_display, .httpd_resp_set_status "303 See Other",
            .httpd_resp_set_hdr "Location" "/",
            .httpd_resp_sendstr "post processed successfully"],
          ⟨vars.temp, vars.goal, vars.under,
            atof strtod zero (writeBytes content0 0 (recv (MIN content_len 100)).data)⟩⟩
      else if uri = "/api/set_lower_margin".toList then
        ⟨.ESP_OK, [.update_display, .httpd_resp_set_status "303 See Other",
            .httpd_resp_set_hdr "Location" "/",
            .httpd_resp_sendstr "post processed successfully"],
          ⟨vars.temp, vars.goal,
            atof strtod zero (writeBytes content0 0 (recv (MIN content_len 100)).data),
            vars.over⟩⟩
      else
        ⟨.ESP_OK, [.httpd_resp_set_status "501 Not Implemented",
            .httpd_resp_sendstr "couldn't match that req to a server function",
            .httpd_resp_set_status "303 See Other",
            .httpd_resp_set_hdr "Location" "/",
            .httpd_resp_sendstr "post processed successfully"], vars⟩ := by
  have e1 := strcmp_eq_zero_iff uri "/api/set_temp".toList hu (by decide)
  have e2 := strcmp_eq_zero_iff uri "/api/set_upper_margin".toList hu (by decide)
  have e3 := strcmp_eq_zero_iff uri "/api/set_lower_margin".toList hu (by decide)
  have hn : ¬ ((recv (MIN content_len 100)).ret ≤ 0) := by omega
  unfold api_post_handler
  simp only [e1, e2, e3]
  rw [if_neg hn]

/-- Frame effect of `api_post_handler`: after a successful receive, `/api/set_temp`,
`/api/set_upper_margin` and `/api/set_lower_margin` store `atof(content)` in `goal`,
`over` and `under` respectively, leave the other two setpoints and `temp` as they were
and call `update_display` exactly once; every other route, and every non-positive receive
result, leaves all four variables as they were and does not call `update_display`. The
value stored is the conversion of the whole array `content`: the handler puts no
terminator after the received bytes, so whatever the array held behind them is converted
with them. -/
theorem api_post_handler_frame {F : Type} (strtod : Mem → Option F) (zero : F)
    (recv : Nat → RecvResult) (uri : List Char) (content_len : Nat) (content0 : Mem)
    (vars : Setpoints F) (hu : NulFree uri) :
    (0 < (recv (MIN content_len 100)).ret → uri = "/api/set_temp".toList →
      (api_post_handler strtod zero recv uri content_len content0 vars).vars =
        ⟨vars.temp,
          atof strtod zero (writeBytes content0 0 (recv (MIN content_len 100)).data),
          vars.under, vars.over⟩ ∧
      (api_post_handler strtod zero recv uri content_len content0 vars).trace.count
        Event.update_display = 1) ∧
    (0 < (recv (MIN content_len 100)).ret → uri = "/api/set_upper_margin".toList →
      (api_post_handler strtod zero recv uri content_len content0 vars).vars =
        ⟨vars.temp, vars.goal, vars.under,
          atof strtod zero (writeBytes content0 0 (recv (MIN content_len 100)).data)⟩ ∧
      (api_post_handler strtod zero recv uri content_len content0 vars).trace.count
        Event.update_display = 1) ∧
    (0 < (recv (MIN content_len 100)).ret → uri = "/api/set_lower_margin".toList →
      (api_post_handler strtod zero recv uri content_len content0 vars).vars =
        ⟨vars.temp, vars.goal,
          atof strtod zero (writeBytes content0 0 (recv (MIN content_len 100)).data),
          vars.over⟩ ∧
      (api_post_handler strtod zero recv uri content_len content0 vars).trace.count
        Event.update_display = 1) ∧
    (0 < (recv (MIN content_len 100)).ret → uri ≠ "/api/set_temp".toList →
      uri ≠ "/api/set_upper_margin".toList → uri ≠ "/api/set_lower_margin".toList →
      (api_post_handler strtod zero recv uri content_len content0 vars).vars = vars ∧
      (api_post_handler strtod zero recv uri content_len content0 vars).trace.count
        Event.update_display = 0) ∧
    ((recv (MIN content_len 100)).ret ≤ 0 →
      (api_post_handler strtod zero recv uri content_len content0 vars).vars = vars ∧
      (api_post_handler strtod zero recv uri content_len content0 vars).trace.count
        Event.update_display = 0 ∧
      (api_post_handler strtod zero recv uri content_len content0 vars).ret = .ESP_FAIL) := by
  have d1 : ¬ ("/api/set_upper_margin".toList = "/api/set_temp".toList) := by decide
  have d2 : ¬ ("/api/set_lower_margin".toList = "/api/set_temp".toList) := by decide
  have d3 : ¬ ("/api/set_lower_margin".toList = "/api/set_upper_margin".toList) := by decide
  refine ⟨?_, ?_, ?_, ?_, ?_⟩
  · intro hpos hr
    rw [api_post_handler_of_pos strtod zero recv uri content_len content0 vars hu hpos,
      if_pos hr]
    exact ⟨rfl, rfl⟩
  · intro hpos hr
    rw [api_post_handler_of_pos strtod zero recv uri content_len content0 vars hu hpos,
      if_neg (by rw [hr]; exact d1), if_pos hr]
    exact ⟨rfl, rfl⟩
  · intro hpos hr
    rw [api_post_handler_of_pos strtod zero recv uri content_len content0 vars hu hpos,
      if_neg (by rw [hr]; exact d2), if_neg (by rw [hr]; exact d3), if_pos hr]
    exact ⟨rfl, rfl⟩
  · intro hpos h1 h2 h3
    rw [api_post_handler_of_pos strtod zero recv uri content_len content0 vars hu hpos,
      if_neg h1, if_neg h2, if_neg h3]
    exact ⟨rfl, rfl⟩
  · intro hle
    have h := api_post_handler_of_nonpos strtod zero recv uri content_len content0 vars hle
    exact ⟨h.2.1, h.2.2, h.1⟩

/-- POST `/api/set_upper_margin` with three bytes received: only `over` changes and the
display is updated once. -/
theorem api_post_handler_frame_witness :
    (api_post_handler (fun _ => some (3 : Int)) 0 (fun _ => ⟨3, "3.0".toList⟩)
        "/api/set_upper_margin".toList 3 (fun _ => 'x') ⟨20, 21, 1, 2⟩).vars =
      ⟨20, 21, 1, atof (fun _ => some (3 : Int)) 0
        (writeBytes (fun _ => 'x') 0 "3.0".toList)⟩ ∧
    (api_post_handler (fun _ => some (3 : Int)) 0 (fun _ => ⟨3, "3.0".toList⟩)
        "/api/set_upper_margin".toList 3 (fun _ => 'x') ⟨20, 21, 1, 2⟩).trace.count
      Event.update_display = 1 :=
  (api_post_handler_frame (fun _ => some (3 : Int)) 0 (fun _ => ⟨3, "3.0".toList⟩)
    "/api/set_upper_margin".toList 3 (fun _ => 'x') ⟨20, 21, 1, 2⟩ (by decide)).2.1
    (by decide) rfl

/-- C7, at the failing input: POST `/api/set_temp` with content length 4 and body `21.5`,
received into an array `content` whose bytes 4 to 7 hold `7` and whose byte 8 is zero.
The handler appends no terminator to the four received bytes, so the conversion reads
`21.57777` and `goal` becomes 2157777 / 10 ^ 5, whereas the body by itself converts to
215 / 10 ^ 1, a different number; the same request with a zeroed array stores the value
of the body. The value stored thus depends on what the array held before the call. -/
theorem api_post_handler_stale_bytes :
    (api_post_handler (strtod_decimal 100) ⟨0, 0⟩ (fun _ => ⟨4, "21.5".toList⟩)
        "/api/set_temp".toList 4 stale_content ⟨⟨20, 0⟩, ⟨21, 0⟩, ⟨1, 0⟩, ⟨2, 0⟩⟩).vars.goal
      = ⟨2157777, 5⟩ ∧
    atof (strtod_decimal 100) ⟨0, 0⟩ (strcpy (fun _ => 'x') 0 "21.5".toList) = ⟨215, 1⟩ ∧
    (2157777 : Nat) * 10 ≠ 215 * 100000 ∧
    (api_post_handler (strtod_decimal 100) ⟨0, 0⟩ (fun _ => ⟨4, "21.5".toList⟩)
        "/api/set_temp".toList 4 (fun _ => NUL) ⟨⟨20, 0⟩, ⟨21, 0⟩, ⟨1, 0⟩, ⟨2, 0⟩⟩).vars.goal
      = ⟨215, 1⟩ ∧
    (api_post_handler (strtod_decimal 100) ⟨0, 0⟩ (fun _ => ⟨4, "21.5".toList⟩)
        "/api/set_temp".toList 4 stale_content ⟨⟨20, 0⟩, ⟨21, 0⟩, ⟨1, 0⟩, ⟨2, 0⟩⟩).ret
      = .ESP_OK := by
  decide

/-- C8, refuted as stated: on the unmatched route `/api/unknown_route` the handler sends
two bodies; the first, sent right after status 501 is set, is the explanatory text, not
the generic message, which follows under status 303. -/
theorem api_post_handler_unknown_route_bodies :
    (api_post_handler (fun _ => some (3 : Int)) 0 (fun _ => ⟨3, "3.0".toList⟩)
        "/api/unknown_route".toList 3 (fun _ => 'x') ⟨20, 21, 1, 2⟩).trace =
      [.httpd_resp_set_status "501 Not Implemented",
        .httpd_resp_sendstr "couldn't match that req to a server function",
        .httpd_resp_set_status "303 See Other",
        .httpd_resp_set_hdr "Location" "/",
        .httpd_resp_sendstr "post processed successfully"] := by
  decide

/-- C8, amended: whenever the receive step succeeds, `api_post_handler` returns `ESP_OK`
and the last things it does are to set status `303 See Other`, set the `Location` header
to `/` and send the body `post processed successfully`; on a setpoint route only the
display update comes before that, and on an unmatched route the handler first sets
status `501 Not Implemented` and sends the explanatory body
`couldn't match that req to a server function`, so that two bodies are sent. -/
theorem api_post_handler_finish {F : Type} (strtod : Mem → Option F) (zero : F)
    (recv : Nat → RecvResult) (uri : List Char) (content_len : Nat) (content0 : Mem)
    (vars : Setpoints F) (hu : NulFree uri) (hrecv : 0 < (recv (MIN content_len 100)).ret) :
    (api_post_handler strtod zero recv uri content_len content0 vars).ret = .ESP_OK ∧
    ((uri = "/api/set_temp".toList ∨ uri = "/api/set_upper_margin".toList ∨
        uri = "/api/set_lower_margin".toList) →
      (api_post_handler strtod zero recv uri content_len content0 vars).trace =
        [.update_display,
          .httpd_resp_set_status "303 See Other",
          .httpd_resp_set_hdr "Location" "/",
          .httpd_resp_sendstr "post processed successfully"]) ∧
    (¬ (uri = "/api/set_temp".toList ∨ uri = "/api/set_upper_margin".toList ∨
        uri = "/api/set_lower_margin".toList) →
      (api_post_handler strtod zero recv uri content_len content0 vars).trace =
        [.httpd_resp_set_status "501 Not Implemented",
          .httpd_resp_sendstr "couldn't match that req to a server function",
          .httpd_resp_set_status "303 See Other",
          .httpd_resp_set_hdr "Location" "/",
          .httpd_resp_sendstr "post processed successfully"]) := by
  rw [api_post_handler_of_pos strtod zero recv uri content_len content0 vars hu hrecv]
  by_cases h1 : uri = "/api/set_temp".toList
  · rw [if_pos h1]
    exact ⟨rfl, fun _ => rfl, fun h => absurd (Or.inl h1) h⟩
  · by_cases h2 : uri = "/api/set_upper_margin".toList
    · rw [if_neg h1, if_pos h2]
      exact ⟨rfl, fun _ => rfl, fun h => absurd (Or.inr (Or.inl h2)) h⟩
    · by_cases h3 : uri = "/api/set_lower_margin".toList
      · rw [if_neg h1, if_neg h2, if_pos h3]
        exact ⟨rfl, fun _ => rfl, fun h => absurd (Or.inr (Or.inr h3)) h⟩
      · rw [if_neg h1, if_neg h2, if_neg h3]
        refine ⟨rfl, fun h => ?_, fun _ => rfl⟩
        rcases h with h | h | h
        · exact absurd h h1
        · exact absurd h h2
        · exact absurd h h3

/-- POST `/api/set_upper_margin` with three bytes received: display update, then the 303
sequence. -/
theorem api_post_handler_finish_witness :
    (api_post_handler (fun _ => some (3 : Int)) 0 (fun _ => ⟨3, "3.0".toList⟩)
        "/api/set_upper_margin".toList 3 (fun _ => 'x') ⟨20, 21, 1, 2⟩).ret = .ESP_OK ∧
    (api_post_handler (fun _ => some (3 : Int)) 0 (fun _ => ⟨3, "3.0".toList⟩)
        "/api/set_upper_margin".toList 3 (fun _ => 'x') ⟨20, 21, 1, 2⟩).trace =
      [.update_display,
        .httpd_resp_set_status "303 See Other",
        .httpd_resp_set_hdr "Location" "/",
        .httpd_resp_sendstr "post processed successfully"] :=
  have h := api_post_handler_finish (fun _ => some (3 : Int)) 0
    (fun _ => ⟨3, "3.0".toList⟩) "/api/set_upper_margin".toList 3 (fun _ => 'x')
    ⟨20, 21, 1, 2⟩ (by decide) (by decide)
  ⟨h.1, h.2.1 (Or.inr (Or.inl rfl))⟩

/-- C9, refuted as stated: a POST to `/api/set_temp` with declared content length 0 asks
`httpd_req_recv` for 0 bytes, the receive result 0 takes the failure exit, and `goal`
keeps its value 21 instead of becoming 0. -/
theorem api_post_handler_empty_body_fails :
    MIN 0 100 = 0 ∧
    (api_post_handler (fun _ => none) (0 : Int) (fun _ => ⟨0, []⟩)
        "/api/set_temp".toList 0 (fun _ => 'x') ⟨20, 21, 1, 2⟩).ret = .ESP_FAIL ∧
    (api_post_handler (fun _ => none) (0 : Int) (fun _ => ⟨0, []⟩)
        "/api/set_temp".toList 0 (fun _ => 'x') ⟨20, 21, 1, 2⟩).vars.goal = 21 ∧
    (api_post_handler (fun _ => none) (0 : Int) (fun _ => ⟨0, []⟩)
        "/api/set_temp".toList 0 (fun _ => 'x') ⟨20, 21, 1, 2⟩).trace = [] := by
  decide

/-- C9, amended: for a POST to one of the three setpoint routes, with `httpd_req_recv`
returning no more than the number of bytes it was asked for: when the declared content
length is 0 the bounded read asks for 0 bytes, the receive result is not positive, and
the handler returns `ESP_FAIL` with every setpoint unchanged; when the receive step
succeeds and the number conversion finds no number in the received buffer, the handler
returns `ESP_OK` and stores zero in the setpoint of the route. -/
theorem api_post_handler_non_numeric {F : Type} (strtod : Mem → Option F) (zero : F)
    (recv : Nat → RecvResult) (uri : List Char) (content_len : Nat) (content0 : Mem)
    (vars : Setpoints F)
    (hroute : uri = "/api/set_temp".toList ∨ uri = "/api/set_upper_margin".toList ∨
      uri = "/api/set_lower_margin".toList)
    (hrecv : (recv (MIN content_len 100)).ret ≤ (MIN content_len 100 : Nat)) :
    (content_len = 0 →
      (api_post_handler strtod zero recv uri content_len content0 vars).ret = .ESP_FAIL ∧
      (api_post_handler strtod zero recv uri content_len content0 vars).vars = vars) ∧
    (0 < (recv (MIN content_len 100)).ret →
      strtod (writeBytes content0 0 (recv (MIN content_len 100)).data) = none →
      (api_post_handler strtod zero recv uri content_len content0 vars).ret = .ESP_OK ∧
      (uri = "/api/set_temp".toList →
        (api_post_handler strtod zero recv uri content_len content0 vars).vars =
          ⟨vars.temp, zero, vars.under, vars.over⟩) ∧
      (uri = "/api/set_upper_margin".toList →
        (api_post_handler strtod zero recv uri content_len content0 vars).vars =
          ⟨vars.temp, vars.goal, vars.under, zero⟩) ∧
      (uri = "/api/set_lower_margin".toList →
        (api_post_handler strtod zero recv uri content_len content0 vars).vars =
          ⟨vars.temp, vars.goal, zero, vars.over⟩)) := by
  have hu : NulFree uri := by
    rcases hroute with h | h | h <;> rw [h] <;> decide
  have d1 : ¬ ("/api/set_upper_margin".toList = "/api/set_temp".toList) := by decide
  have d2 : ¬ ("/api/set_lower_margin".toList = "/api/set_temp".toList) := by decide
  have d3 : ¬ ("/api/set_lower_margin".toList = "/api/set_upper_margin".toList) := by decide
  constructor
  · intro h0
    have hm : MIN content_len 100 = 0 := by rw [h0]; decide
    have hle : (recv (MIN content_len 100)).ret ≤ 0 := by
      rw [hm] at hrecv ⊢; exact_mod_cast hrecv
    have h := api_post_handler_of_nonpos strtod zero recv uri content_len content0 vars hle
    exact ⟨h.1, h.2.1⟩
  · intro hpos hnone
    have hz : atof strtod zero (writeBytes content0 0 (recv (MIN content_len 100)).data)
        = zero := by
      simp [atof, hnone]
    rw [api_post_handler_of_pos strtod zero recv uri content_len content0 vars hu hpos, hz]
    rcases hroute with h | h | h
    · rw [if_pos h]
      exact ⟨rfl, fun _ => rfl, fun e => absurd (h.symm.trans e).symm d1,
        fun e => absurd (h.symm.trans e).symm d2⟩
    · rw [if_neg (by rw [h]; exact d1), if_pos h]
      exact ⟨rfl, fun e => absurd (h.symm.trans e) d1, fun _ => rfl,
        fun e => absurd (h.symm.trans e).symm d3⟩
    · rw [if_neg (by rw [h]; exact d2), if_neg (by rw [h]; exact d3), if_pos h]
      exact ⟨rfl, fun e => absurd (h.symm.trans e) d2, fun e => absurd (h.symm.trans e) d3,
        fun _ => rfl⟩

/-- POST `/api/set_temp` with the three bytes `abc` received and no number found: `goal`
becomes zero. -/
theorem api_post_handler_non_numeric_witness :
    (api_post_handler (fun _ => none) (0 : Int) (fun _ => ⟨3, "abc".toList⟩)
        "/api/set_temp".toList 3 (fun _ => 'x') ⟨20, 21, 1, 2⟩).ret = .ESP_OK ∧
    (api_post_handler (fun _ => none) (0 : Int) (fun _ => ⟨3, "abc".toList⟩)
        "/api/set_temp".toList 3 (fun _ => 'x') ⟨20, 21, 1, 2⟩).vars = ⟨20, 0, 1, 2⟩ :=
  have h := (api_post_handler_non_numeric (fun _ => none) (0 : Int)
    (fun _ => ⟨3, "abc".toList⟩) "/api/set_temp".toList 3 (fun _ => 'x') ⟨20, 21, 1, 2⟩
    (Or.inl rfl) (by decide)).2 (by decide) rfl
  ⟨h.1, h.2.1 rfl⟩

end Webserver
